import Mathlib

/-!
Verification of the Music-Stream-Sync core (frontend/src/App.js).

We shallowly embed the three JavaScript classes that carry the protocol and
timing logic — AudioSyncEngine, P2PManager, and the ICE-candidate forwarding
callback installed by initializeP2P — as pure Lean functions over explicit
state records.  Wall-clock and audio-clock readings (audioContext.currentTime,
performance.now) are passed in as explicit rational parameters; external
effects (decodeAudioData, gain automation calls, data-channel transmission)
are modelled as returned values.  Times are rationals, exact where the source
uses IEEE doubles.
-/

/-- A decoded audio buffer, as produced by decodeAudioData: a sample count and
a sample rate (duration = numberOfSamples / sampleRate). -/
structure AudioBuffer where
  numberOfSamples : Nat
  sampleRate : ℚ
deriving DecidableEq, Repr

/-- A Web Audio gain-automation call, as issued on gainNode.gain.  The source
only ever issues setValueAtTime; the other constructors are the ramped
alternatives the API offers, present so that "ramped vs stepped" is statable. -/
inductive GainEvent where
  | setValueAtTime (value time : ℚ)
  | linearRampToValueAtTime (value time : ℚ)
  | setTargetAtTime (value time timeConstant : ℚ)
deriving DecidableEq, Repr

/-- Whether a gain-automation call is a ramp (gradual) rather than an
instantaneous step. -/
def GainEvent.isRamp : GainEvent → Bool
  | .setValueAtTime _ _ => false
  | .linearRampToValueAtTime _ _ => true
  | .setTargetAtTime _ _ _ => true

/-- The mutable fields of class AudioSyncEngine (App.js lines 9 to 35) that the
playback-clock, chunk-scheduling, volume and sync operations read or write.
audioContext and gainNode record presence of the corresponding objects;
sourceNode records whether a buffer-source node reference is held. -/
structure EngineState where
  audioContext : Bool
  audioBuffer : Option AudioBuffer
  sourceNode : Bool
  gainNode : Bool
  startTime : ℚ
  pauseTime : ℚ
  isPlaying : Bool
  nextPlayTime : ℚ
deriving DecidableEq, Repr

namespace EngineState

/-- The state right after the constructor plus a successful initialize()
(audio context and gain node created, everything else at its initial value). -/
def initial : EngineState :=
  { audioContext := true
    audioBuffer := none
    sourceNode := false
    gainNode := true
    startTime := 0
    pauseTime := 0
    isPlaying := false
    nextPlayTime := 0 }

end EngineState

namespace AudioSyncEngine

/-- stop() (App.js 206-214): drop the source node if any, clear the playing
flag and both clock fields. -/
def stop (s : EngineState) : EngineState :=
  { s with sourceNode := false, isPlaying := false, startTime := 0, pauseTime := 0 }

/-- play(startOffset) (App.js 181-196) at audio-clock reading now: bail out
returning false when no buffer is loaded or no audio context exists, else stop
any existing playback, create a fresh source node, set
startTime := now - startOffset and the playing flag, and return true. -/
def play (now startOffset : ℚ) (s : EngineState) : Bool × EngineState :=
  if s.audioBuffer.isNone || !s.audioContext then (false, s)
  else
    let s1 := stop s
    (true, { s1 with sourceNode := true, startTime := now - startOffset, isPlaying := true })

/-- pause() (App.js 198-204) at audio-clock reading now: when a source node
exists and we are playing, record pauseTime := now - startTime and clear the
playing flag (the stopped node reference is kept); otherwise do nothing. -/
def pause (now : ℚ) (s : EngineState) : EngineState :=
  if s.sourceNode && s.isPlaying then
    { s with pauseTime := now - s.startTime, isPlaying := false }
  else s

/-- getCurrentTime() (App.js 216-219) at audio-clock reading now. -/
def getCurrentTime (now : ℚ) (s : EngineState) : ℚ :=
  if !s.isPlaying then s.pauseTime else now - s.startTime

/-- seek(time) (App.js 238-244) at audio-clock reading now: replay from the
offset when playing, else just rewrite pauseTime. -/
def seek (now t : ℚ) (s : EngineState) : EngineState :=
  if s.isPlaying then (play now t s).2 else { s with pauseTime := t }

/-- setVolume(volume) (App.js 221-225) at audio-clock reading now: when a gain
node exists, issue gain.setValueAtTime(volume, now); the returned value is the
automation call issued, none when no gain node exists. -/
def setVolume (volume now : ℚ) (s : EngineState) : Option GainEvent :=
  if s.gainNode then some (.setValueAtTime volume now) else none

/-- syncWithHost(hostTime, hostTimestamp) (App.js 228-236).  nowPerf is the
performance.now() reading in milliseconds, nowCtx the audio-clock reading in
seconds used by getCurrentTime and seek.  Estimates one-way latency as half of
nowPerf - hostTimestamp, projects the host position, and reseeks only when the
absolute drift exceeds 0.05 s. -/
def syncWithHost (nowPerf nowCtx hostTime hostTimestamp : ℚ) (s : EngineState) : EngineState :=
  let networkLatency := (nowPerf - hostTimestamp) / 2
  let targetTime := hostTime + networkLatency / 1000
  if 1/20 < |getCurrentTime nowCtx s - targetTime| then seek nowCtx targetTime s else s

/-- loadAudioFile(file) (App.js 170-179).  The outcome of the external decoder
decodeAudioData over the file's bytes is passed in: none when decoding throws
(unsupported encoding), some buffer on success.  Returns the boolean result
together with the updated state; on failure the state is returned untouched
because the exception fires before the audioBuffer assignment. -/
def loadAudioFile (decoded : Option AudioBuffer) (s : EngineState) :
    Bool × EngineState :=
  match decoded with
  | none => (false, s)
  | some buf => (true, { s with audioBuffer := some buf })

/-- playAudioChunk(audioData, timestamp, sampleRate) (App.js 135-167) with
audio-clock reading now: drop the chunk when no audio context exists; else
build a buffer of audioData.length samples at sampleRate (44100 when the given
rate is zero, mirroring the JS sampleRate-or-44100 default), start it at
max(now, nextPlayTime) and advance nextPlayTime by the buffer duration.
Returns the scheduled start time (none when dropped) and the new state. -/
def playAudioChunk (now : ℚ) (audioDataLen : Nat) (sampleRate : ℚ)
    (s : EngineState) : Option ℚ × EngineState :=
  if !s.audioContext then (none, s)
  else
    let sr := if sampleRate = 0 then 44100 else sampleRate
    let duration := (audioDataLen : ℚ) / sr
    let playTime := max now s.nextPlayTime
    (some playTime, { s with nextPlayTime := playTime + duration })

/-- One call in a playback-control sequence: play(t), pause() or seek(t). -/
inductive EngineOp where
  | play (t : ℚ)
  | pause
  | seek (t : ℚ)
deriving DecidableEq, Repr

/-- Execute one playback-control call at audio-clock reading now. -/
def stepOp (now : ℚ) (op : EngineOp) (s : EngineState) : EngineState :=
  match op with
  | .play t => (play now t s).2
  | .pause => pause now s
  | .seek t => seek now t s

/-- Execute a sequence of playback-control calls, each with the audio-clock
reading at which it happens. -/
def runOps : List (ℚ × EngineOp) → EngineState → EngineState
  | [], s => s
  | (now, op) :: rest, s => runOps rest (stepOp now op s)

/-- A received live-audio chunk as handed to playAudioChunk: the audio-clock
reading at its ingestion, its sample count and its sample rate. -/
structure Chunk where
  arrival : ℚ
  len : Nat
  sampleRate : ℚ
deriving DecidableEq, Repr

/-- Ingest a list of chunks in order through playAudioChunk, collecting each
chunk's scheduled start time (none for a dropped chunk) in arrival order. -/
def scheduleChunks : List Chunk → EngineState → List (Option ℚ) × EngineState
  | [], s => ([], s)
  | c :: rest, s =>
    let r := playAudioChunk c.arrival c.len c.sampleRate s
    let rr := scheduleChunks rest r.2
    (r.1 :: rr.1, rr.2)

end AudioSyncEngine

/-- The mutable fields of class P2PManager (App.js 248-361).  dataChannel
records the channel's readyState string when a channel object exists;
appliedCandidates records the candidates handed to the underlying
RTCPeerConnection by addIceCandidate. -/
structure P2PState where
  peerConnection : Bool
  dataChannel : Option String
  isHost : Bool
  connectionState : String
  appliedCandidates : List Nat
deriving DecidableEq, Repr

namespace P2PManager

/-- sendData(data) (App.js 347-351): transmit on the channel only when a
channel exists and its readyState is open; the first component is the payload
actually transmitted (none when dropped), the second the resulting manager
state. -/
def sendData (d : Nat) (s : P2PState) : Option Nat × P2PState :=
  match s.dataChannel with
  | some rs => if rs = "open" then (some d, s) else (none, s)
  | none => (none, s)

/-- addIceCandidate(candidate) (App.js 341-345): when a peer connection
exists, hand the candidate to the underlying negotiation engine; no P2PManager
field other than the applied-candidate log changes, in any phase. -/
def addIceCandidate (c : Nat) (s : P2PState) : P2PState :=
  if s.peerConnection then { s with appliedCandidates := s.appliedCandidates ++ [c] } else s

end P2PManager

/-- A signaling envelope as posted to the relay over the WebSocket. -/
structure SignalEnvelope where
  type : String
  targetId : String
  payload : Nat
deriving DecidableEq, Repr

/-- The ice-candidate branch of the onMessage callback that initializeP2P
installs on the P2PManager (App.js 490-506): every produced ICE candidate is
wrapped in a webrtc_ice_candidate envelope with target_id set to the literal
broadcast address. -/
def initializeP2P_onIceCandidate (candidate : Nat) : SignalEnvelope :=
  { type := "webrtc_ice_candidate", targetId := "broadcast", payload := candidate }

/-! Concrete states used by witnesses and counterexamples. -/

/-- An initialized engine with a 10-second buffer loaded (441000 samples at
44.1 kHz), not playing. -/
def bufferedInit : EngineState :=
  { EngineState.initial with audioBuffer := some ⟨441000, 44100⟩ }

/-- A buffered engine playing with startTime 1 (so media position now - 1). -/
def playingAt1 : EngineState :=
  { bufferedInit with isPlaying := true, sourceNode := true, startTime := 1 }

/-- A buffered client engine paused at media position t. -/
def clientPausedAt (t : ℚ) : EngineState :=
  { bufferedInit with pauseTime := t }

/-- A P2PManager before initialize(): no peer connection, no channel. -/
def uninitP2P : P2PState :=
  { peerConnection := false, dataChannel := none, isHost := false,
    connectionState := "disconnected", appliedCandidates := [] }

/-- A P2PManager with an open data channel. -/
def openChannelP2P : P2PState :=
  { uninitP2P with peerConnection := true, dataChannel := some "open",
                   connectionState := "connected" }

namespace AudioSyncEngine

/-! Preservation lemmas: the playback-control calls never touch the decoded
buffer or the audio context, and chunk ingestion never touches the context. -/

lemma play_audioBuffer (now t : ℚ) (s : EngineState) :
    ((play now t s).2).audioBuffer = s.audioBuffer := by
  unfold play stop
  split <;> rfl

lemma play_audioContext (now t : ℚ) (s : EngineState) :
    ((play now t s).2).audioContext = s.audioContext := by
  unfold play stop
  split <;> rfl

lemma pause_audioBuffer (now : ℚ) (s : EngineState) :
    (pause now s).audioBuffer = s.audioBuffer := by
  unfold pause
  split <;> rfl

lemma pause_audioContext (now : ℚ) (s : EngineState) :
    (pause now s).audioContext = s.audioContext := by
  unfold pause
  split <;> rfl

lemma seek_audioBuffer (now t : ℚ) (s : EngineState) :
    (seek now t s).audioBuffer = s.audioBuffer := by
  unfold seek
  split
  · exact play_audioBuffer now t s
  · rfl

lemma seek_audioContext (now t : ℚ) (s : EngineState) :
    (seek now t s).audioContext = s.audioContext := by
  unfold seek
  split
  · exact play_audioContext now t s
  · rfl

lemma stepOp_audioBuffer (now : ℚ) (op : EngineOp) (s : EngineState) :
    (stepOp now op s).audioBuffer = s.audioBuffer := by
  cases op with
  | play t => exact play_audioBuffer now t s
  | pause => exact pause_audioBuffer now s
  | seek t => exact seek_audioBuffer now t s

lemma stepOp_audioContext (now : ℚ) (op : EngineOp) (s : EngineState) :
    (stepOp now op s).audioContext = s.audioContext := by
  cases op with
  | play t => exact play_audioContext now t s
  | pause => exact pause_audioContext now s
  | seek t => exact seek_audioContext now t s

lemma runOps_audioBuffer (ops : List (ℚ × EngineOp)) (s : EngineState) :
    (runOps ops s).audioBuffer = s.audioBuffer := by
  induction ops generalizing s with
  | nil => rfl
  | cons p rest ih =>
    rw [runOps, ih, stepOp_audioBuffer]

lemma runOps_audioContext (ops : List (ℚ × EngineOp)) (s : EngineState) :
    (runOps ops s).audioContext = s.audioContext := by
  induction ops generalizing s with
  | nil => rfl
  | cons p rest ih =>
    rw [runOps, ih, stepOp_audioContext]

lemma playAudioChunk_audioContext (now : ℚ) (len : Nat) (rate : ℚ) (s : EngineState) :
    ((playAudioChunk now len rate s).2).audioContext = s.audioContext := by
  unfold playAudioChunk
  split <;> rfl

lemma scheduleChunks_complete (cs : List Chunk) (s : EngineState)
    (hctx : s.audioContext = true) :
    (scheduleChunks cs s).1.length = cs.length
    ∧ ∀ o ∈ (scheduleChunks cs s).1, o.isSome = true := by
  induction cs generalizing s with
  | nil => exact ⟨rfl, by intro o ho; cases ho⟩
  | cons c rest ih =>
    have hctx2 : ((playAudioChunk c.arrival c.len c.sampleRate s).2).audioContext = true := by
      rw [playAudioChunk_audioContext]; exact hctx
    have hr := ih _ hctx2
    have hstart : (playAudioChunk c.arrival c.len c.sampleRate s).1
        = some (max c.arrival s.nextPlayTime) := by
      unfold playAudioChunk
      rw [hctx]
      rfl
    refine ⟨?_, ?_⟩
    · show ((playAudioChunk c.arrival c.len c.sampleRate s).1 :: _).length = rest.length + 1
      simp [hr.1]
    · intro o ho
      rcases List.mem_cons.mp ho with h | h
      · subst h; rw [hstart]; rfl
      · exact hr.2 o h

end AudioSyncEngine

/-! Claim theorems. -/

open AudioSyncEngine P2PManager

/-- Claim C1: after every call in any sequence of play(t), pause(), seek(t)
calls on an engine with a loaded buffer and a live context, the playback-clock
invariant holds: currentPosition is now - startTime while playing and
pauseTime while paused; immediately after play(t) or seek(t) the position
equals t exactly; and while playing the position advances linearly with the
reference clock. -/
theorem c1_playback_clock_invariant (init : EngineState)
    (hbuf : init.audioBuffer.isSome = true) (hctx : init.audioContext = true)
    (ops : List (ℚ × EngineOp)) (now : ℚ) (op : EngineOp) :
    getCurrentTime now (stepOp now op (runOps ops init)) =
      (if (stepOp now op (runOps ops init)).isPlaying then
        now - (stepOp now op (runOps ops init)).startTime
      else (stepOp now op (runOps ops init)).pauseTime)
    ∧ (∀ t, op = EngineOp.play t ∨ op = EngineOp.seek t →
        getCurrentTime now (stepOp now op (runOps ops init)) = t)
    ∧ ((stepOp now op (runOps ops init)).isPlaying = true →
        ∀ d : ℚ, getCurrentTime (now + d) (stepOp now op (runOps ops init)) =
          getCurrentTime now (stepOp now op (runOps ops init)) + d) := by
  have hb : (runOps ops init).audioBuffer.isSome = true := by
    rw [runOps_audioBuffer]; exact hbuf
  have hc : (runOps ops init).audioContext = true := by
    rw [runOps_audioContext]; exact hctx
  obtain ⟨b, hb2⟩ := Option.isSome_iff_exists.mp hb
  refine ⟨?_, ?_, ?_⟩
  · cases h : (stepOp now op (runOps ops init)).isPlaying <;>
      simp [getCurrentTime, h]
  · intro t ht
    rcases ht with ht | ht <;> subst ht
    · show getCurrentTime now (play now t (runOps ops init)).2 = t
      simp [play, hb2, hc, stop, getCurrentTime]
    · show getCurrentTime now (seek now t (runOps ops init)) = t
      by_cases hp : (runOps ops init).isPlaying
      · simp only [seek, hp, if_true]
        simp [play, hb2, hc, stop, getCurrentTime]
      · simp [seek, hp, getCurrentTime]
  · intro hp d
    simp [getCurrentTime, hp]
    ring

/-- Witness for C1: on a buffered engine, play(2) at clock reading 5 leaves
the current position at exactly 2. -/
theorem c1_playback_clock_invariant_witness :
    getCurrentTime 5 (stepOp 5 (EngineOp.play 2) (runOps [] bufferedInit)) = 2 :=
  (c1_playback_clock_invariant bufferedInit rfl rfl [] 5 (EngineOp.play 2)).2.1 2 (Or.inl rfl)

/-- Counterexample for C2 as stated: with host position 10.000 s at
host-timestamp 1000 ms and the correction applied at local time 1040 ms, the
projected position is 10.000 + 0.020 = 10.020 s, so a client paused at
9.960 s has drift 0.060 s > 0.05 s and DOES reseek (to 10.020 s), contrary to
the claim that 9.960 s stays under the threshold. -/
theorem c2_counterexample_9960_reseeks :
    (syncWithHost 1040 0 10 1000 (clientPausedAt (249/25))).pauseTime = 501/50
    ∧ (clientPausedAt (249/25)).pauseTime = 249/25
    ∧ syncWithHost 1040 0 10 1000 (clientPausedAt (249/25)) ≠ clientPausedAt (249/25) := by
  refine ⟨?_, rfl, ?_⟩
  · norm_num [syncWithHost, seek, getCurrentTime, clientPausedAt, bufferedInit,
      EngineState.initial, lt_abs, abs_le]
  · intro h
    have h2 := congrArg EngineState.pauseTime h
    norm_num [syncWithHost, seek, getCurrentTime, clientPausedAt, bufferedInit,
      EngineState.initial, lt_abs, abs_le] at h2

/-- Claim C2 (amended): syncWithHost estimates one-way latency as
(now - hostTimestamp)/2 ms, projects the host position to
hostPosition + latency/1000 s, reseeks to the projection exactly when the
absolute drift exceeds 0.05 s, and leaves the state untouched when the drift
is at or under the threshold; with host position 10.000 s at host-timestamp
1000 ms applied at local time 1040 ms, a client at 9.800 s reseeks to
10.020 s while a client at 9.980 s is left unchanged (the originally claimed
9.960 s fixture in fact reseeks, since its drift is 0.060 s). -/
theorem c2_sync_correction (nowPerf nowCtx hostTime hostTimestamp : ℚ)
    (s : EngineState) :
    (|getCurrentTime nowCtx s - (hostTime + ((nowPerf - hostTimestamp) / 2) / 1000)| ≤ 1/20 →
       syncWithHost nowPerf nowCtx hostTime hostTimestamp s = s)
    ∧ (1/20 < |getCurrentTime nowCtx s - (hostTime + ((nowPerf - hostTimestamp) / 2) / 1000)| →
       syncWithHost nowPerf nowCtx hostTime hostTimestamp s =
         seek nowCtx (hostTime + ((nowPerf - hostTimestamp) / 2) / 1000) s)
    ∧ (1/20 < |getCurrentTime nowCtx s - (hostTime + ((nowPerf - hostTimestamp) / 2) / 1000)| →
       s.audioBuffer.isSome = true → s.audioContext = true →
       getCurrentTime nowCtx (syncWithHost nowPerf nowCtx hostTime hostTimestamp s) =
         hostTime + ((nowPerf - hostTimestamp) / 2) / 1000)
    ∧ (syncWithHost 1040 0 10 1000 (clientPausedAt (49/5))).pauseTime = 501/50
    ∧ syncWithHost 1040 0 10 1000 (clientPausedAt (499/50)) = clientPausedAt (499/50) := by
  refine ⟨?_, ?_, ?_, ?_, ?_⟩
  · intro h
    simp only [syncWithHost]
    rw [if_neg (not_lt.mpr h)]
  · intro h
    simp only [syncWithHost]
    rw [if_pos h]
  · intro h hbuf hctx
    simp only [syncWithHost]
    rw [if_pos h]
    obtain ⟨b, hb2⟩ := Option.isSome_iff_exists.mp hbuf
    by_cases hp : s.isPlaying
    · simp only [seek, hp, if_true]
      simp [play, hb2, hctx, stop, getCurrentTime]
    · simp [seek, hp, getCurrentTime]
  · norm_num [syncWithHost, seek, getCurrentTime, clientPausedAt, bufferedInit,
      EngineState.initial, lt_abs, abs_le]
  · norm_num [syncWithHost, seek, getCurrentTime, clientPausedAt, bufferedInit,
      EngineState.initial, lt_abs, abs_le]

/-- Witness for C2: a client already exactly at the projected position
10.020 s has zero drift and is left unchanged by the correction. -/
theorem c2_sync_correction_witness :
    syncWithHost 1040 0 10 1000 (clientPausedAt (501/50)) = clientPausedAt (501/50) :=
  (c2_sync_correction 1040 0 10 1000 (clientPausedAt (501/50))).1 (by
    norm_num [getCurrentTime, clientPausedAt, bufferedInit, EngineState.initial, abs_le])

/-- Claim C3: on an initialized engine, an ingested chunk is started at
max(outputClockNow, nextFreeSlot) and nextFreeSlot then advances to that start
plus the chunk duration len/rate; hence the chunk is gapless (starts at the
previous end) when it arrives before the previous chunk finished, starts at
its arrival time when it arrives later, and never starts before the previous
end (no overlap); over any ingestion sequence every chunk is scheduled,
exactly one start per chunk in arrival order (no drop, no reorder). -/
theorem c3_chunk_scheduling (s : EngineState) (hctx : s.audioContext = true)
    (now : ℚ) (len : Nat) (rate : ℚ) (hrate : 0 < rate) (cs : List Chunk) :
    (playAudioChunk now len rate s).1 = some (max now s.nextPlayTime)
    ∧ (playAudioChunk now len rate s).2.nextPlayTime
        = max now s.nextPlayTime + (len : ℚ) / rate
    ∧ (now ≤ s.nextPlayTime → (playAudioChunk now len rate s).1 = some s.nextPlayTime)
    ∧ (s.nextPlayTime ≤ now → (playAudioChunk now len rate s).1 = some now)
    ∧ (∀ t, (playAudioChunk now len rate s).1 = some t → s.nextPlayTime ≤ t)
    ∧ (scheduleChunks cs s).1.length = cs.length
    ∧ (∀ o ∈ (scheduleChunks cs s).1, o.isSome = true) := by
  have hr0 : rate ≠ 0 := ne_of_gt hrate
  have hmain : playAudioChunk now len rate s
      = (some (max now s.nextPlayTime),
         { s with nextPlayTime := max now s.nextPlayTime + (len : ℚ) / rate }) := by
    simp [playAudioChunk, hctx, hr0]
  have hcomplete := scheduleChunks_complete cs s hctx
  refine ⟨?_, ?_, ?_, ?_, ?_, hcomplete.1, hcomplete.2⟩
  · rw [hmain]
  · rw [hmain]
  · intro h
    rw [hmain]
    simp [max_eq_right h]
  · intro h
    rw [hmain]
    simp [max_eq_left h]
  · intro t ht
    rw [hmain] at ht
    have hmax : max now s.nextPlayTime = t := Option.some_inj.mp ht
    exact hmax ▸ le_max_right now s.nextPlayTime

/-- Witness for C3: a first chunk (44100 samples at 44.1 kHz) ingested at
clock reading 2 into a fresh engine (free slot 0) starts at its arrival
time 2. -/
theorem c3_chunk_scheduling_witness :
    (playAudioChunk 2 44100 44100 EngineState.initial).1 = some 2 := by
  have h := c3_chunk_scheduling EngineState.initial rfl 2 44100 44100 (by norm_num) []
  exact h.2.2.2.1 (by norm_num [EngineState.initial])

/-- Claim C4: sendData transmits the payload exactly when a data channel
exists and its readyState is open; in every other case the payload is
silently dropped and the manager state is left entirely unchanged (no queue,
no error, no state mutation); the state is also unchanged on success. -/
theorem c4_sendData_best_effort (s : P2PState) (d : Nat) :
    ((sendData d s).1 = some d ↔ s.dataChannel = some "open")
    ∧ (sendData d s).2 = s := by
  rcases h : s.dataChannel with _ | rs
  · simp [sendData, h]
  · by_cases hrs : rs = "open" <;> simp [sendData, h, hrs]

/-- Witness for C4: a manager whose channel readyState is open transmits the
payload. -/
theorem c4_sendData_best_effort_witness :
    (sendData 5 openChannelP2P).1 = some 5 :=
  ((c4_sendData_best_effort openChannelP2P 5).1).mpr rfl

/-- Claim C5: pause() is idempotent on the playback clock: it is a no-op when
already paused, a second pause leaves the state — hence currentPosition —
exactly as after the first, and when the engine was playing the stored
pauseTime equals the media time elapsed at the moment of the first pause.
The hypothesis that a playing engine holds a source node is established by
play(), the only operation that sets the playing flag. -/
theorem c5_pause_idempotent (s : EngineState)
    (hsrc : s.isPlaying = true → s.sourceNode = true) (t1 t2 : ℚ) :
    (s.isPlaying = false → pause t1 s = s)
    ∧ pause t2 (pause t1 s) = pause t1 s
    ∧ getCurrentTime t2 (pause t2 (pause t1 s)) = getCurrentTime t1 (pause t1 s)
    ∧ (s.isPlaying = true → (pause t1 s).pauseTime = getCurrentTime t1 s) := by
  cases hp : s.isPlaying with
  | false =>
    have h1 : pause t1 s = s := by simp [pause, hp]
    refine ⟨fun _ => h1, ?_, ?_, fun h => absurd h (by simp [hp])⟩
    · rw [h1]; simp [pause, hp]
    · rw [h1]
      have h2 : pause t2 s = s := by simp [pause, hp]
      rw [h2]
      simp [getCurrentTime, hp]
  | true =>
    have hs : s.sourceNode = true := hsrc hp
    have h1 : pause t1 s = { s with pauseTime := t1 - s.startTime, isPlaying := false } := by
      simp [pause, hp, hs]
    have h2 : pause t2 (pause t1 s) = pause t1 s := by
      rw [h1]; simp [pause]
    refine ⟨fun h => Bool.noConfusion h, h2, ?_, fun _ => ?_⟩
    · rw [h2, h1]
      simp [getCurrentTime]
    · rw [h1]
      simp [getCurrentTime, hp]

/-- Witness for C5: pausing a playing engine (startTime 1) at clock reading 4
and pausing again at 7 changes nothing the second time. -/
theorem c5_pause_idempotent_witness :
    pause 7 (pause 4 playingAt1) = pause 4 playingAt1 :=
  (c5_pause_idempotent playingAt1 (fun _ => rfl) 4 7).2.1

/-- Counterexample for C6 as stated: setVolume(0.5) at clock reading 7 on an
initialized engine issues gain.setValueAtTime(0.5, 7) — an instantaneous
step at a single instant, not a ramp. -/
theorem c6_counterexample_step_not_ramp :
    setVolume (1/2) 7 EngineState.initial
      = some (GainEvent.setValueAtTime (1/2) 7)
    ∧ GainEvent.isRamp (GainEvent.setValueAtTime (1/2) 7) = false :=
  ⟨rfl, rfl⟩

/-- Claim C6 (amended): for every volume level, setVolume applies the new
gain as an instantaneous step — gain.setValueAtTime at the current context
time — rather than a ramp; the single automation call it issues is never a
ramped one. -/
theorem c6_setVolume_stepped (v now : ℚ) (s : EngineState)
    (h : s.gainNode = true) :
    setVolume v now s = some (GainEvent.setValueAtTime v now)
    ∧ ∀ e, setVolume v now s = some e → GainEvent.isRamp e = false := by
  constructor
  · simp [setVolume, h]
  · intro e he
    simp [setVolume, h] at he
    rw [← he]
    rfl

/-- Witness for C6 (amended): setVolume(0.5) at clock reading 7 issues the
step call setValueAtTime(0.5, 7). -/
theorem c6_setVolume_stepped_witness :
    setVolume (1/2) 7 EngineState.initial
      = some (GainEvent.setValueAtTime (1/2) 7) :=
  (c6_setVolume_stepped (1/2) 7 EngineState.initial rfl).1

/-- Claim C7: loadAudioFile either installs the decoded buffer and reports
true, or — when the payload is not a supported encoding, i.e. the decoder
yields nothing — reports false to the caller with the whole engine state
(in particular startTime, pauseTime, isPlaying and any in-flight playback
node) left completely unchanged. -/
theorem c7_loadAudioFile_atomic (s : EngineState) (decoded : Option AudioBuffer) :
    (decoded = none → loadAudioFile decoded s = (false, s))
    ∧ ∀ b, decoded = some b →
        loadAudioFile decoded s = (true, { s with audioBuffer := some b }) := by
  constructor
  · intro h
    subst h
    rfl
  · intro b h
    subst h
    rfl

/-- Witness for C7: a decode failure during playback reports false and leaves
the playing engine untouched. -/
theorem c7_loadAudioFile_atomic_witness :
    loadAudioFile none playingAt1 = (false, playingAt1) :=
  (c7_loadAudioFile_atomic playingAt1 none).1 rfl

/-- Claim C8: every ICE candidate produced by the underlying negotiation
engine is forwarded by the initializeP2P callback in a webrtc_ice_candidate
envelope whose target_id is the literal broadcast address — addressed to all
other session members rather than only the intended peer (the all-broadcast
defect the spec flags). -/
theorem c8_ice_candidate_broadcast (candidate : Nat) :
    (initializeP2P_onIceCandidate candidate).targetId = "broadcast"
    ∧ (initializeP2P_onIceCandidate candidate).type = "webrtc_ice_candidate"
    ∧ (initializeP2P_onIceCandidate candidate).payload = candidate :=
  ⟨rfl, rfl, rfl⟩

/-- Claim C9: addIceCandidate never faults the negotiation state machine: in
every phase it leaves connectionState unchanged (in particular it never
moves the manager to closed), and on an uninitialized manager (no peer
connection) it is a complete no-op. -/
theorem c9_addIceCandidate_no_fault (s : P2PState) (c : Nat) :
    (addIceCandidate c s).connectionState = s.connectionState
    ∧ ((addIceCandidate c s).connectionState = "closed" ↔ s.connectionState = "closed")
    ∧ (s.peerConnection = false → addIceCandidate c s = s) := by
  by_cases h : s.peerConnection = true <;>
    simp [addIceCandidate, h]

/-- Witness for C9: a stray candidate applied to an uninitialized manager
changes nothing. -/
theorem c9_addIceCandidate_no_fault_witness :
    addIceCandidate 3 uninitP2P = uninitP2P :=
  (c9_addIceCandidate_no_fault uninitP2P 3).2.2 rfl

/-- Claim C10: play(t) on an engine with no decoded buffer or no audio
context returns false and leaves the entire state unchanged — no source node
is created, no in-flight playback is stopped, and startTime, pauseTime and
isPlaying keep their values. -/
theorem c10_play_unloaded_noop (s : EngineState) (now t : ℚ)
    (h : s.audioBuffer = none ∨ s.audioContext = false) :
    play now t s = (false, s) := by
  rcases h with h | h <;> simp [play, h]

/-- Witness for C10: play(3) at clock reading 5 on a fresh engine with no
buffer returns false and changes nothing. -/
theorem c10_play_unloaded_noop_witness :
    play 5 3 EngineState.initial = (false, EngineState.initial) :=
  c10_play_unloaded_noop EngineState.initial 5 3 (Or.inl rfl)
